import Mathlib

/-!
Verification of the multi-camera lens-to-chart distance calculator
(`lens_to_chart_distance.py`) against its design specification.

The program computes, per camera, a near distance bound (from a fixed
pixels-per-cm resolution threshold) and a far distance bound (from chart
width, wall width, minimum chart fraction of the horizontal field of view,
and a room-distance cap), then intersects the per-camera intervals.

Python floats are modelled as real numbers.  Where the Python source guards
a division with a truthiness test (`x if d else 0`), the Lean definition
carries the same `if d = 0` guard.  Distances are in millimetres unless a
name says otherwise.
-/

namespace LensChart

/-- Resolution threshold: `PIXELS_PER_CM = 55` (source line 49). -/
def PIXELS_PER_CM : ℝ := 55

/-- Environment and chart settings from the sidebar: chart width (cm, from
the chart-size preset), wall width (cm, input minimum 1), max allowable
distance from wall (cm, input minimum 1), and minimum chart fraction of the
horizontal field of view (slider, range 0 to 1). -/
structure EnvSpec where
  chart_width_cm : ℝ
  wall_width_cm : ℝ
  max_room_dist_cm : ℝ
  min_chart_fraction : ℝ

/-- Chart widths (cm) of the five presets: A4, Letter, Legal, A3, Ledger
(source lines 30 to 37, mm values divided by 10). -/
def chartPresetWidths : List ℝ := [21, 21.6, 21.6, 29.7, 27.9]

/-- `pixel_size_um = (sensor_width_mm / h_pixels) * 1000.0` (source line 67). -/
noncomputable def pixel_size_um (sensor_width_mm : ℝ) (h_pixels : ℕ) : ℝ :=
  (sensor_width_mm / h_pixels) * 1000

/-- `sensor_width_mm = (h_pixels * pixel_size_um) / 1000.0` (source line 71). -/
noncomputable def sensor_width_of_pitch (h_pixels : ℕ) (pitch_um : ℝ) : ℝ :=
  (h_pixels * pitch_um) / 1000

/-- `sensor_height_mm = (v_pixels * pixel_size_um) / 1000.0` (source line 75). -/
noncomputable def sensor_height_mm (v_pixels : ℕ) (pitch_um : ℝ) : ℝ :=
  (v_pixels * pitch_um) / 1000

/-- `sensor_diag_mm = math.hypot(w, h) = sqrt(w^2 + h^2)` (source line 76). -/
noncomputable def sensor_diag_mm (w h : ℝ) : ℝ :=
  Real.sqrt (w ^ 2 + h ^ 2)

/-- `dfov_deg = degrees(2 * atan((diag / 2) / focal)) if focal else 0`
(source line 85); `math.degrees x = x * 180 / pi`. -/
noncomputable def dfov_deg (diag focal : ℝ) : ℝ :=
  if focal = 0 then 0 else 2 * Real.arctan ((diag / 2) / focal) * (180 / Real.pi)

/-- `focal_length_mm = (diag / 2) / tan(radians(dfov / 2)) if dfov else 0`
(source line 89); `math.radians x = x * pi / 180`. -/
noncomputable def focal_of_dfov (diag dfov : ℝ) : ℝ :=
  if dfov = 0 then 0 else (diag / 2) / Real.tan (dfov / 2 * (Real.pi / 180))

/-- `hfov_min_cm = h_pixels / PIXELS_PER_CM` (source line 93). -/
noncomputable def hfov_min_cm (h_pixels : ℕ) : ℝ :=
  h_pixels / PIXELS_PER_CM

/-- `hfov_min_mm = hfov_min_cm * 10` (source line 94). -/
noncomputable def hfov_min_mm (h_pixels : ℕ) : ℝ :=
  hfov_min_cm h_pixels * 10

/-- `mag_min = sensor_width_mm / hfov_min_mm if hfov_min_mm else 0`
(source line 95). -/
noncomputable def mag_min (sensor_width_mm : ℝ) (h_pixels : ℕ) : ℝ :=
  if hfov_min_mm h_pixels = 0 then 0 else sensor_width_mm / hfov_min_mm h_pixels

/-- `min_dist_mm = focal / mag_min + focal if mag_min else 0` (source line 96). -/
noncomputable def min_dist_mm (sensor_width_mm focal_mm : ℝ) (h_pixels : ℕ) : ℝ :=
  if mag_min sensor_width_mm h_pixels = 0 then 0
  else focal_mm / mag_min sensor_width_mm h_pixels + focal_mm

/-- `hfov_max_chart_cm = chart / frac if frac else float("inf")` and
`hfov_max_cm = min(wall, hfov_max_chart_cm)` (source lines 99 to 100).
The wall width is a finite real, so `min(wall, inf) = wall`; the infinite
branch is therefore rendered as `wall` directly. -/
noncomputable def hfov_max_cm (env : EnvSpec) : ℝ :=
  if env.min_chart_fraction = 0 then env.wall_width_cm
  else min env.wall_width_cm (env.chart_width_cm / env.min_chart_fraction)

/-- `hfov_max_mm = hfov_max_cm * 10` (source line 101). -/
noncomputable def hfov_max_mm (env : EnvSpec) : ℝ :=
  hfov_max_cm env * 10

/-- `mag_max = sensor_width_mm / hfov_max_mm if hfov_max_mm else 0`
(source line 102). -/
noncomputable def mag_max (sensor_width_mm : ℝ) (env : EnvSpec) : ℝ :=
  if hfov_max_mm env = 0 then 0 else sensor_width_mm / hfov_max_mm env

/-- `max_dist_mm = focal / mag_max + focal if mag_max else 0` (source line
103), before the room cap is applied. -/
noncomputable def max_dist_uncapped_mm (sensor_width_mm focal_mm : ℝ) (env : EnvSpec) : ℝ :=
  if mag_max sensor_width_mm env = 0 then 0
  else focal_mm / mag_max sensor_width_mm env + focal_mm

/-- `max_dist_mm = min(max_dist_mm, max_room_dist_cm * 10)` (source line 104). -/
noncomputable def max_dist_mm (sensor_width_mm focal_mm : ℝ) (env : EnvSpec) : ℝ :=
  min (max_dist_uncapped_mm sensor_width_mm focal_mm env) (env.max_room_dist_cm * 10)

/-- Sensor definition mode (source lines 61 to 72): either the sensor width
in mm or the pixel size in micrometres is given. -/
inductive SensorDef where
  | widthMM (w : ℝ)
  | pitchUM (p : ℝ)

/-- Lens definition mode (source lines 79 to 90): either the focal length in
mm or the diagonal field of view in degrees is given. -/
inductive LensDef where
  | focalMM (f : ℝ)
  | dfovDeg (a : ℝ)

/-- Per-camera form inputs (source lines 57 to 90). -/
structure CameraSpec where
  h_pixels : ℕ
  v_pixels : ℕ
  sensor : SensorDef
  lens : LensDef

/-- Resolve the sensor definition to `(sensor_width_mm, pixel_size_um)`
(source lines 65 to 72). -/
noncomputable def resolveSensor (h_pixels : ℕ) : SensorDef → ℝ × ℝ
  | .widthMM w => (w, pixel_size_um w h_pixels)
  | .pitchUM p => (sensor_width_of_pitch h_pixels p, p)

/-- Resolve the lens definition to the focal length in mm (source lines 83
to 90). -/
noncomputable def resolveFocal (diag : ℝ) : LensDef → ℝ
  | .focalMM f => f
  | .dfovDeg a => focal_of_dfov diag a

/-- A camera's computed working range, `{"name": ..., "min_mm": ...,
"max_mm": ...}` without the name (source line 106). -/
structure CameraRange where
  min_mm : ℝ
  max_mm : ℝ

/-- The whole per-camera computation (source lines 57 to 106): resolve the
sensor, derive height and diagonal, resolve the lens, then compute the near
and far distance bounds. -/
noncomputable def computeCamera (env : EnvSpec) (cam : CameraSpec) : CameraRange :=
  { min_mm :=
      min_dist_mm (resolveSensor cam.h_pixels cam.sensor).1
        (resolveFocal
          (sensor_diag_mm (resolveSensor cam.h_pixels cam.sensor).1
            (sensor_height_mm cam.v_pixels (resolveSensor cam.h_pixels cam.sensor).2))
          cam.lens)
        cam.h_pixels
    max_mm :=
      max_dist_mm (resolveSensor cam.h_pixels cam.sensor).1
        (resolveFocal
          (sensor_diag_mm (resolveSensor cam.h_pixels cam.sensor).1
            (sensor_height_mm cam.v_pixels (resolveSensor cam.h_pixels cam.sensor).2))
          cam.lens)
        env }

/-- `lower_mm = max(cam["min_mm"] for cam in cameras)` (source line 109);
Python's `max` over a non-empty sequence is a left fold of binary `max`
over the first element and the rest. -/
noncomputable def lower_mm (c : CameraRange) (cs : List CameraRange) : ℝ :=
  cs.foldl (fun a x => max a x.min_mm) c.min_mm

/-- `upper_mm = min(cam["max_mm"] for cam in cameras)` (source line 110). -/
noncomputable def upper_mm (c : CameraRange) (cs : List CameraRange) : ℝ :=
  cs.foldl (fun a x => min a x.max_mm) c.max_mm

/-- The reported outcome (source lines 117 to 120): the common range when
`lower_mm <= upper_mm`, otherwise the no-overlap indication (`none`). -/
noncomputable def commonRange (c : CameraRange) (cs : List CameraRange) : Option (ℝ × ℝ) :=
  if lower_mm c cs ≤ upper_mm c cs then some (lower_mm c cs, upper_mm c cs) else none

/-! ### Definitions written from the specification text, for refinement claims -/

/-- Near-distance formula as the spec states it: `min_horizontal_field =
h_pixels / threshold` (cm), `magnification = sensor_width /
min_horizontal_field` with the field converted to mm for unit consistency,
and `min_distance = focal_length / magnification + focal_length`, or 0 if
the magnification is 0. -/
noncomputable def specNearDistance (h_pixels : ℕ) (sensor_width_mm focal_mm : ℝ) : ℝ :=
  if sensor_width_mm / ((h_pixels / PIXELS_PER_CM) * 10) = 0 then 0
  else focal_mm / (sensor_width_mm / ((h_pixels / PIXELS_PER_CM) * 10)) + focal_mm

/-- Far horizontal field as the spec states it: `max_field_from_chart =
chart_width / min_chart_fraction`, infinite if the fraction is 0 (rendered
as an extended real), and `max_field = min(wall_width,
max_field_from_chart)`. -/
noncomputable def spec_max_field_cm (env : EnvSpec) : EReal :=
  min (env.wall_width_cm : EReal)
    (if env.min_chart_fraction = 0 then ⊤
      else ((env.chart_width_cm / env.min_chart_fraction : ℝ) : EReal))

/-- Far-bound magnification as the spec states it: `magnification =
sensor_width / max_field` (with the field converted to mm), zero when the
field is infinite. -/
noncomputable def spec_magnification (sensor_width_mm : ℝ) (env : EnvSpec) : ℝ :=
  if spec_max_field_cm env = ⊤ then 0
  else sensor_width_mm / ((spec_max_field_cm env).toReal * 10)

/-- Far-distance formula as the spec states it: `max_distance =
focal_length / magnification + focal_length` (or 0 for zero magnification),
then `max_distance = min(max_distance, max_room_distance)`. -/
noncomputable def specFarDistance (sensor_width_mm focal_mm : ℝ) (env : EnvSpec) : ℝ :=
  min
    (if spec_magnification sensor_width_mm env = 0 then 0
      else focal_mm / spec_magnification sensor_width_mm env + focal_mm)
    (env.max_room_dist_cm * 10)

/-! ### Helper lemmas -/

theorem mag_min_eq (sw : ℝ) (h : ℕ) : mag_min sw h = sw / hfov_min_mm h := by
  unfold mag_min
  by_cases h0 : hfov_min_mm h = 0
  · simp [h0]
  · simp [h0]

theorem mag_max_eq (sw : ℝ) (env : EnvSpec) : mag_max sw env = sw / hfov_max_mm env := by
  unfold mag_max
  by_cases h0 : hfov_max_mm env = 0
  · simp [h0]
  · simp [h0]

theorem ereal_coe_min (a b : ℝ) : ((min a b : ℝ) : EReal) = min (a : EReal) (b : EReal) := by
  rcases le_total a b with h | h
  · rw [min_eq_left h, min_eq_left (EReal.coe_le_coe_iff.mpr h)]
  · rw [min_eq_right h, min_eq_right (EReal.coe_le_coe_iff.mpr h)]

theorem spec_max_field_ne_top (env : EnvSpec) : spec_max_field_cm env ≠ ⊤ :=
  (lt_of_le_of_lt (min_le_left _ _) (EReal.coe_lt_top env.wall_width_cm)).ne

theorem spec_max_field_toReal (env : EnvSpec) :
    (spec_max_field_cm env).toReal = hfov_max_cm env := by
  by_cases h0 : env.min_chart_fraction = 0
  · rw [spec_max_field_cm, if_pos h0, min_eq_left le_top, EReal.toReal_coe,
      hfov_max_cm, if_pos h0]
  · rw [spec_max_field_cm, if_neg h0, ← ereal_coe_min, EReal.toReal_coe,
      hfov_max_cm, if_neg h0]

theorem spec_magnification_eq (sw : ℝ) (env : EnvSpec) :
    spec_magnification sw env = mag_max sw env := by
  rw [spec_magnification, if_neg (spec_max_field_ne_top env), spec_max_field_toReal,
    mag_max_eq]
  rfl

/-! ### Helper lemmas about the fold-based maximum and minimum -/

theorem le_foldl_max (f : CameraRange → ℝ) (l : List CameraRange) (a : ℝ) :
    a ≤ l.foldl (fun b x => max b (f x)) a := by
  induction l generalizing a with
  | nil => exact le_refl a
  | cons y l ih => exact le_trans (le_max_left a (f y)) (ih (max a (f y)))

theorem mem_le_foldl_max (f : CameraRange → ℝ) (l : List CameraRange) (a : ℝ)
    (x : CameraRange) (hx : x ∈ l) : f x ≤ l.foldl (fun b y => max b (f y)) a := by
  induction l generalizing a with
  | nil => cases hx
  | cons y l ih =>
    rcases List.mem_cons.mp hx with h | h
    · subst h
      exact le_trans (le_max_right a (f x)) (le_foldl_max f l (max a (f x)))
    · exact ih (max a (f y)) h

theorem foldl_max_mem (f : CameraRange → ℝ) (l : List CameraRange) (a : ℝ) :
    l.foldl (fun b x => max b (f x)) a = a ∨
      ∃ x ∈ l, l.foldl (fun b y => max b (f y)) a = f x := by
  induction l generalizing a with
  | nil => exact Or.inl rfl
  | cons y l ih =>
    rcases ih (max a (f y)) with h | ⟨x, hx, h⟩
    · rcases max_choice a (f y) with h2 | h2
      · exact Or.inl (by rw [List.foldl_cons, h, h2])
      · exact Or.inr ⟨y, List.mem_cons_self y l, by rw [List.foldl_cons, h, h2]⟩
    · exact Or.inr ⟨x, List.mem_cons_of_mem y hx, h⟩

theorem foldl_min_le (f : CameraRange → ℝ) (l : List CameraRange) (a : ℝ) :
    l.foldl (fun b x => min b (f x)) a ≤ a := by
  induction l generalizing a with
  | nil => exact le_refl a
  | cons y l ih => exact le_trans (ih (min a (f y))) (min_le_left a (f y))

theorem foldl_min_le_mem (f : CameraRange → ℝ) (l : List CameraRange) (a : ℝ)
    (x : CameraRange) (hx : x ∈ l) : l.foldl (fun b y => min b (f y)) a ≤ f x := by
  induction l generalizing a with
  | nil => cases hx
  | cons y l ih =>
    rcases List.mem_cons.mp hx with h | h
    · subst h
      exact le_trans (foldl_min_le f l (min a (f x))) (min_le_right a (f x))
    · exact ih (min a (f y)) h

theorem foldl_min_mem (f : CameraRange → ℝ) (l : List CameraRange) (a : ℝ) :
    l.foldl (fun b x => min b (f x)) a = a ∨
      ∃ x ∈ l, l.foldl (fun b y => min b (f y)) a = f x := by
  induction l generalizing a with
  | nil => exact Or.inl rfl
  | cons y l ih =>
    rcases ih (min a (f y)) with h | ⟨x, hx, h⟩
    · rcases min_choice a (f y) with h2 | h2
      · exact Or.inl (by rw [List.foldl_cons, h, h2])
      · exact Or.inr ⟨y, List.mem_cons_self y l, by rw [List.foldl_cons, h, h2]⟩
    · exact Or.inr ⟨x, List.mem_cons_of_mem y hx, h⟩

/-! ### Claims -/

/-- C1: over any non-empty camera list `c :: cs`, `lower_mm` is the maximum
of the cameras' `min_mm` values and `upper_mm` the minimum of their `max_mm`
values (an upper, resp. lower, bound attained by some camera); the outcome
is the common range `[lower, upper]` exactly when `lower <= upper` and the
no-overlap indication otherwise; and for a single camera the bounds are the
camera's own `min_mm` and `max_mm`. -/
theorem crossCamera_reducer_correct (c : CameraRange) (cs : List CameraRange) :
    (∀ x ∈ c :: cs, x.min_mm ≤ lower_mm c cs ∧ upper_mm c cs ≤ x.max_mm) ∧
      (∃ x ∈ c :: cs, lower_mm c cs = x.min_mm) ∧
      (∃ x ∈ c :: cs, upper_mm c cs = x.max_mm) ∧
      commonRange c cs =
        (if lower_mm c cs ≤ upper_mm c cs then some (lower_mm c cs, upper_mm c cs)
          else none) ∧
      lower_mm c [] = c.min_mm ∧ upper_mm c [] = c.max_mm := by
  refine ⟨?_, ?_, ?_, rfl, rfl, rfl⟩
  · intro x hx
    rcases List.mem_cons.mp hx with h | h
    · subst h
      exact ⟨le_foldl_max _ cs _, foldl_min_le _ cs _⟩
    · exact ⟨mem_le_foldl_max _ cs _ x h, foldl_min_le_mem _ cs _ x h⟩
  · rcases foldl_max_mem (fun x => x.min_mm) cs c.min_mm with h | ⟨x, hx, h⟩
    · exact ⟨c, List.mem_cons_self c cs, h⟩
    · exact ⟨x, List.mem_cons_of_mem c hx, h⟩
  · rcases foldl_min_mem (fun x => x.max_mm) cs c.max_mm with h | ⟨x, hx, h⟩
    · exact ⟨c, List.mem_cons_self c cs, h⟩
    · exact ⟨x, List.mem_cons_of_mem c hx, h⟩

/-- C3: the code's near bound agrees with the spec's formula: the threshold
is 55 pixels per cm, and `min_dist_mm` equals `min_horizontal_field =
h_pixels / threshold`, `magnification = sensor_width / min_horizontal_field`
(unit-converted to mm), `min_distance = focal / magnification + focal`, with
0 substituted when the magnification is 0. -/
theorem near_bound_formula (sw f : ℝ) (h : ℕ) :
    PIXELS_PER_CM = 55 ∧ min_dist_mm sw f h = specNearDistance h sw f := by
  refine ⟨rfl, ?_⟩
  rw [min_dist_mm, mag_min_eq, specNearDistance]
  rfl

/-- C4: the code's far bound agrees with the spec's formula chain
(`max_field_from_chart = chart / fraction` treated as infinite at fraction
0, `max_field = min(wall, max_field_from_chart)`, `magnification =
sensor_width / max_field`, `max_distance = focal / magnification + focal`
capped at the room distance), and at fraction 0 the chart width has no
influence on the far bound. -/
theorem far_bound_formula (sw f : ℝ) (env : EnvSpec) :
    max_dist_mm sw f env = specFarDistance sw f env ∧
      (env.min_chart_fraction = 0 → ∀ c : ℝ,
        max_dist_mm sw f ⟨c, env.wall_width_cm, env.max_room_dist_cm, 0⟩ =
          max_dist_mm sw f env) := by
  constructor
  · rw [specFarDistance, spec_magnification_eq]
    rfl
  · intro h0 c
    have henv : hfov_max_cm ⟨c, env.wall_width_cm, env.max_room_dist_cm, 0⟩ =
        hfov_max_cm env := by
      simp [hfov_max_cm, h0]
    rw [max_dist_mm, max_dist_mm, max_dist_uncapped_mm, max_dist_uncapped_mm,
      mag_max_eq, mag_max_eq, hfov_max_mm, hfov_max_mm, henv]

/-- C9: the near bound is independent of every environment setting (wall
width, room-distance cap, chart preset, minimum chart fraction): two runs
with the same camera specification and different environments produce the
same `min_mm`; in particular the near bound is never capped by the room
distance. -/
theorem near_bound_env_noninterference (cam : CameraSpec) (env env' : EnvSpec) :
    (computeCamera env cam).min_mm = (computeCamera env' cam).min_mm := rfl

/-- C5: round-trip of the normalizer. Deriving the sensor width from a
pixel pitch and re-deriving the pitch from that width returns the original
pitch (for a positive horizontal pixel count and positive pitch), and
deriving the diagonal FOV from a positive focal length and re-deriving the
focal length from that FOV returns the original focal length (for a
positive sensor diagonal). -/
theorem normalizer_round_trip :
    (∀ (h : ℕ) (p : ℝ), 0 < h → 0 < p →
        pixel_size_um (sensor_width_of_pitch h p) h = p) ∧
      (∀ d f : ℝ, 0 < d → 0 < f → focal_of_dfov d (dfov_deg d f) = f) := by
  constructor
  · intro h p hh _
    have hh0 : (h : ℝ) ≠ 0 := Nat.cast_ne_zero.mpr hh.ne'
    rw [pixel_size_um, sensor_width_of_pitch]
    field_simp
    ring
  · intro d f hd hf
    have hf0 : f ≠ 0 := ne_of_gt hf
    have hu : (0 : ℝ) < d / 2 / f := div_pos (by linarith) hf
    have harct : Real.arctan (d / 2 / f) ≠ 0 := by
      rw [Ne, Real.arctan_eq_zero_iff]
      exact ne_of_gt hu
    rw [dfov_deg, if_neg hf0]
    have hdfov : 2 * Real.arctan (d / 2 / f) * (180 / Real.pi) ≠ 0 :=
      mul_ne_zero (mul_ne_zero two_ne_zero harct)
        (div_ne_zero (by norm_num) Real.pi_ne_zero)
    rw [focal_of_dfov, if_neg hdfov]
    have harg : 2 * Real.arctan (d / 2 / f) * (180 / Real.pi) / 2 * (Real.pi / 180) =
        Real.arctan (d / 2 / f) := by
      field_simp
      ring
    rw [harg, Real.tan_arctan, div_div_eq_mul_div, mul_comm,
      mul_div_assoc, div_self (by linarith : d / 2 ≠ 0), mul_one]

/-- Witness for C5 at concrete inputs. -/
theorem normalizer_round_trip_witness :
    pixel_size_um (sensor_width_of_pitch 3848 2) 3848 = 2 ∧
      focal_of_dfov 8.72 (dfov_deg 8.72 3) = 3 :=
  ⟨normalizer_round_trip.1 3848 2 (by norm_num) (by norm_num),
    normalizer_round_trip.2 8.72 3 (by norm_num) (by norm_num)⟩

/-- C6: zero-magnification and degenerate-input guards substitute 0 instead
of failing: a zero `mag_min` gives a near distance of 0, a zero `mag_max`
gives an (uncapped) far distance of 0, which stays 0 after the room cap
whenever the room-distance input respects its enforced minimum of 1; a zero
sensor width gives zero magnification on both bounds; a zero focal length
gives a reported FOV of 0; and a zero FOV angle gives a reported focal
length of 0. -/
theorem zero_guard_substitution :
    (∀ (sw f : ℝ) (h : ℕ), mag_min sw h = 0 → min_dist_mm sw f h = 0) ∧
      (∀ (sw f : ℝ) (env : EnvSpec), mag_max sw env = 0 →
        max_dist_uncapped_mm sw f env = 0 ∧
          (1 ≤ env.max_room_dist_cm → max_dist_mm sw f env = 0)) ∧
      (∀ h : ℕ, mag_min 0 h = 0) ∧
      (∀ env : EnvSpec, mag_max 0 env = 0) ∧
      (∀ d : ℝ, dfov_deg d 0 = 0) ∧
      (∀ d : ℝ, focal_of_dfov d 0 = 0) := by
  refine ⟨?_, ?_, ?_, ?_, ?_, ?_⟩
  · intro sw f h hm
    rw [min_dist_mm, if_pos hm]
  · intro sw f env hm
    have hu : max_dist_uncapped_mm sw f env = 0 := by
      rw [max_dist_uncapped_mm, if_pos hm]
    refine ⟨hu, fun hr => ?_⟩
    rw [max_dist_mm, hu]
    exact min_eq_left (by linarith)
  · intro h
    rw [mag_min_eq]
    exact zero_div _
  · intro env
    rw [mag_max_eq]
    exact zero_div _
  · intro d
    simp [dfov_deg]
  · intro d
    simp [focal_of_dfov]

/-- Witness for C6 at concrete inputs. -/
theorem zero_guard_substitution_witness :
    min_dist_mm 0 3 55 = 0 ∧ max_dist_mm 0 3 ⟨21, 300, 200, 0.1⟩ = 0 :=
  ⟨zero_guard_substitution.1 0 3 55 (by rw [mag_min_eq]; exact zero_div _),
    (zero_guard_substitution.2.1 0 3 ⟨21, 300, 200, 0.1⟩
        (by rw [mag_max_eq]; exact zero_div _)).2 (by norm_num)⟩

/-- C10: any diagonal-FOV input strictly between 180 and 360 degrees passes
the zero-angle guard but makes the half-angle tangent negative, so with a
positive sensor diagonal the derived focal length is negative, and with a
positive sensor width both computed distance bounds are negative. -/
theorem reflex_fov_negative (a d sw : ℝ) (h : ℕ) (env : EnvSpec)
    (ha1 : 180 < a) (ha2 : a < 360) (hd : 0 < d) (hsw : 0 < sw) (hh : 0 < h)
    (hwall : 1 ≤ env.wall_width_cm) (hchart : 0 < env.chart_width_cm)
    (hfrac : 0 ≤ env.min_chart_fraction) :
    focal_of_dfov d a < 0 ∧ min_dist_mm sw (focal_of_dfov d a) h < 0 ∧
      max_dist_mm sw (focal_of_dfov d a) env < 0 := by
  have hπ : (0 : ℝ) < Real.pi := Real.pi_pos
  have hθ1 : Real.pi / 2 < a / 2 * (Real.pi / 180) := by
    nlinarith [mul_pos (show (0 : ℝ) < a - 180 by linarith) hπ]
  have hθ2 : a / 2 * (Real.pi / 180) < Real.pi := by
    nlinarith [mul_pos (show (0 : ℝ) < 360 - a by linarith) hπ]
  have hsin : 0 < Real.sin (a / 2 * (Real.pi / 180)) :=
    Real.sin_pos_of_pos_of_lt_pi (by linarith) hθ2
  have hcos : Real.cos (a / 2 * (Real.pi / 180)) < 0 :=
    Real.cos_neg_of_pi_div_two_lt_of_lt hθ1 (by linarith)
  have htan : Real.tan (a / 2 * (Real.pi / 180)) < 0 := by
    rw [Real.tan_eq_sin_div_cos]
    exact div_neg_of_pos_of_neg hsin hcos
  have ha0 : a ≠ 0 := by linarith
  have hfocal : focal_of_dfov d a < 0 := by
    rw [focal_of_dfov, if_neg ha0]
    exact div_neg_of_pos_of_neg (by linarith) htan
  refine ⟨hfocal, ?_, ?_⟩
  · have hmin_pos : 0 < hfov_min_mm h := by
      have : (0 : ℝ) < h := Nat.cast_pos.mpr hh
      rw [hfov_min_mm, hfov_min_cm, PIXELS_PER_CM]
      positivity
    have hmag : 0 < mag_min sw h := by
      rw [mag_min_eq]
      exact div_pos hsw hmin_pos
    rw [min_dist_mm, if_neg (ne_of_gt hmag)]
    have := div_neg_of_neg_of_pos hfocal hmag
    linarith
  · have hmaxc_pos : 0 < hfov_max_cm env := by
      rw [hfov_max_cm]
      by_cases h0 : env.min_chart_fraction = 0
      · rw [if_pos h0]
        linarith
      · rw [if_neg h0]
        exact lt_min (by linarith)
          (div_pos hchart (lt_of_le_of_ne hfrac (Ne.symm h0)))
    have hmax_mm : 0 < hfov_max_mm env := by
      rw [hfov_max_mm]
      exact mul_pos hmaxc_pos (by norm_num)
    have hmag : 0 < mag_max sw env := by
      rw [mag_max_eq]
      exact div_pos hsw hmax_mm
    have huncap : max_dist_uncapped_mm sw (focal_of_dfov d a) env < 0 := by
      rw [max_dist_uncapped_mm, if_neg (ne_of_gt hmag)]
      have := div_neg_of_neg_of_pos hfocal hmag
      linarith
    exact lt_of_le_of_lt (min_le_left _ _) huncap

/-- Witness for C10 at concrete inputs. -/
theorem reflex_fov_negative_witness :
    focal_of_dfov 2 270 < 0 ∧ min_dist_mm 1 (focal_of_dfov 2 270) 55 < 0 ∧
      max_dist_mm 1 (focal_of_dfov 2 270) ⟨21, 300, 200, 0.1⟩ < 0 :=
  reflex_fov_negative 270 2 1 55 ⟨21, 300, 200, 0.1⟩ (by norm_num) (by norm_num)
    (by norm_num) (by norm_num) (by norm_num) (by norm_num) (by norm_num)
    (by norm_num)

theorem hfov_min_mm_pos {h : ℕ} (hh : 0 < h) : 0 < hfov_min_mm h := by
  have : (0 : ℝ) < h := Nat.cast_pos.mpr hh
  rw [hfov_min_mm, hfov_min_cm, PIXELS_PER_CM]
  positivity

/-- C2 counterexample: all inputs are sane in the claim's sense (positive
pixel counts, positive sensor width and focal length, wall width and room
distance at least their enforced minimum of 1, chart fraction in the slider
range), yet the room cap of 1 cm pushes `max_dist_mm` strictly below
`min_dist_mm`. -/
theorem near_le_far_counterexample :
    0 < (7.696 : ℝ) ∧ 0 < (3 : ℝ) ∧ (1 : ℝ) ≤ 300 ∧ (1 : ℝ) ≤ 1 ∧
      (0 : ℝ) ≤ 0.1 ∧ (0.1 : ℝ) ≤ 1 ∧
      max_dist_mm 7.696 3 ⟨21, 300, 1, 0.1⟩ < min_dist_mm 7.696 3 3848 := by
  refine ⟨by norm_num, by norm_num, by norm_num, le_refl 1, by norm_num, by norm_num, ?_⟩
  have hm : mag_min (7.696 : ℝ) 3848 = 7.696 / (3848 / 55 * 10) := by
    rw [mag_min_eq, hfov_min_mm, hfov_min_cm, PIXELS_PER_CM]
    norm_num
  have hm0 : mag_min (7.696 : ℝ) 3848 ≠ 0 := by
    rw [hm]
    norm_num
  have h1 : min_dist_mm 7.696 3 3848 = 3033 / 11 := by
    rw [min_dist_mm, if_neg hm0, hm]
    norm_num
  have hc : hfov_max_cm ⟨21, 300, 1, 0.1⟩ = 210 := by
    rw [hfov_max_cm]
    norm_num
  have hmm : mag_max (7.696 : ℝ) ⟨21, 300, 1, 0.1⟩ = 7.696 / 2100 := by
    rw [mag_max_eq, hfov_max_mm, hc]
    norm_num
  have hmm0 : mag_max (7.696 : ℝ) ⟨21, 300, 1, 0.1⟩ ≠ 0 := by
    rw [hmm]
    norm_num
  have h2 : max_dist_mm 7.696 3 ⟨21, 300, 1, 0.1⟩ = 10 := by
    rw [max_dist_mm, max_dist_uncapped_mm, if_neg hmm0, hmm]
    rw [min_eq_right (by norm_num : ((⟨21, 300, 1, 0.1⟩ : EnvSpec).max_room_dist_cm * 10 : ℝ) ≤ 3 / (7.696 / 2100) + 3)]
    norm_num
  rw [h1, h2]
  norm_num

/-- C2 amended: for a positive sensor width, positive focal length, positive
horizontal pixel count, and positive far field, `min_dist_mm <= max_dist_mm`
holds exactly when the near field does not exceed the far field and the near
distance does not exceed the room cap; sane inputs alone do not guarantee
it. -/
theorem near_le_far_iff (sw f : ℝ) (h : ℕ) (env : EnvSpec)
    (hsw : 0 < sw) (hf : 0 < f) (hh : 0 < h) (hmax : 0 < hfov_max_mm env) :
    min_dist_mm sw f h ≤ max_dist_mm sw f env ↔
      hfov_min_mm h ≤ hfov_max_mm env ∧
        min_dist_mm sw f h ≤ env.max_room_dist_cm * 10 := by
  have hmin_pos : 0 < hfov_min_mm h := hfov_min_mm_pos hh
  have hmagmin : 0 < mag_min sw h := by
    rw [mag_min_eq]
    exact div_pos hsw hmin_pos
  have hmagmax : 0 < mag_max sw env := by
    rw [mag_max_eq]
    exact div_pos hsw hmax
  have e1 : min_dist_mm sw f h = f * hfov_min_mm h / sw + f := by
    rw [min_dist_mm, if_neg (ne_of_gt hmagmin), mag_min_eq, div_div_eq_mul_div]
  have e2 : max_dist_uncapped_mm sw f env = f * hfov_max_mm env / sw + f := by
    rw [max_dist_uncapped_mm, if_neg (ne_of_gt hmagmax), mag_max_eq, div_div_eq_mul_div]
  have key : f * hfov_min_mm h / sw + f ≤ f * hfov_max_mm env / sw + f ↔
      hfov_min_mm h ≤ hfov_max_mm env := by
    rw [add_le_add_iff_right, div_le_div_iff_of_pos_right hsw, mul_le_mul_left hf]
  rw [max_dist_mm, le_min_iff, e2, e1, key]

/-- Witness for the amended C2 at concrete inputs. -/
theorem near_le_far_iff_witness :
    (min_dist_mm 7.696 3 3848 ≤ max_dist_mm 7.696 3 ⟨21, 300, 200, 0.1⟩ ↔
      hfov_min_mm 3848 ≤ hfov_max_mm ⟨21, 300, 200, 0.1⟩ ∧
        min_dist_mm 7.696 3 3848 ≤ (⟨21, 300, 200, 0.1⟩ : EnvSpec).max_room_dist_cm * 10) :=
  near_le_far_iff 7.696 3 3848 ⟨21, 300, 200, 0.1⟩ (by norm_num) (by norm_num)
    (by norm_num)
    (by
      rw [hfov_max_mm, hfov_max_cm]
      norm_num)

/-- C8 counterexample: on Scenario A's inputs the code's pixel pitch and
sensor height match the spec, but the diagonal is `sqrt(7.696^2 + 4.32^2) =
sqrt(77.890816) > 8.82` mm, not approximately 8.72 mm (even with a generous
tolerance of 0.1 mm). -/
theorem scenarioA_counterexample :
    pixel_size_um 7.696 3848 = 2 ∧
      sensor_height_mm 2160 (pixel_size_um 7.696 3848) = 4.32 ∧
      ¬|sensor_diag_mm 7.696 (sensor_height_mm 2160 (pixel_size_um 7.696 3848)) - 8.72| < 0.1 := by
  have hp : pixel_size_um (7.696 : ℝ) 3848 = 2 := by
    rw [pixel_size_um]
    norm_num
  have hhgt : sensor_height_mm 2160 (2 : ℝ) = 4.32 := by
    rw [sensor_height_mm]
    norm_num
  have hd : (8.82 : ℝ) < sensor_diag_mm 7.696 4.32 := by
    rw [sensor_diag_mm, show (7.696 : ℝ) ^ 2 + 4.32 ^ 2 = 77.890816 by norm_num]
    exact Real.lt_sqrt_of_sq_lt (by norm_num)
  rw [hp, hhgt]
  refine ⟨rfl, rfl, fun hc => ?_⟩
  rcases abs_lt.mp hc with ⟨_, h2⟩
  linarith

/-- C8 amended: on Scenario A's inputs the derived pixel pitch is exactly
2.00 micrometres, the sensor height exactly 4.32 mm, and the diagonal is
approximately 8.83 mm (it lies strictly between 8.825 and 8.83, so it
displays as 8.83 at two decimals). -/
theorem scenarioA_values :
    pixel_size_um 7.696 3848 = 2 ∧
      sensor_height_mm 2160 (pixel_size_um 7.696 3848) = 4.32 ∧
      |sensor_diag_mm 7.696 (sensor_height_mm 2160 (pixel_size_um 7.696 3848)) - 8.83| < 0.005 := by
  have hp : pixel_size_um (7.696 : ℝ) 3848 = 2 := by
    rw [pixel_size_um]
    norm_num
  have hhgt : sensor_height_mm 2160 (2 : ℝ) = 4.32 := by
    rw [sensor_height_mm]
    norm_num
  have hsq : (7.696 : ℝ) ^ 2 + 4.32 ^ 2 = 77.890816 := by norm_num
  have hlo : (8.825 : ℝ) < sensor_diag_mm 7.696 4.32 := by
    rw [sensor_diag_mm, hsq]
    exact Real.lt_sqrt_of_sq_lt (by norm_num)
  have hhi : sensor_diag_mm 7.696 4.32 < 8.83 := by
    rw [sensor_diag_mm, hsq]
    exact (Real.sqrt_lt' (by norm_num)).mpr (by norm_num)
  rw [hp, hhgt]
  exact ⟨rfl, rfl, abs_lt.mpr ⟨by linarith, by linarith⟩⟩

/-- Checked real division: Python raises `ZeroDivisionError` on an exactly
zero divisor, modelled as `none`. -/
noncomputable def pydiv (a b : ℝ) : Option ℝ :=
  if b = 0 then none else some (a / b)

/-- The per-camera computation with every division of the source checked,
in source order (lines 57 to 106): the sensor-mode division (line 67 or
71), the height division (line 75), the division inside the displayed FOV
or the FOV-to-focal conversion (line 85 or 89, behind the source's
truthiness guard), the near-bound divisions (lines 93 to 96), and the
far-bound divisions (lines 99 to 104).  The result is `none` exactly when
some executed division has a zero divisor. -/
noncomputable def computeCameraChecked (env : EnvSpec) (cam : CameraSpec) :
    Option CameraRange :=
  (match cam.sensor with
    | .widthMM w => (pydiv w cam.h_pixels).bind fun q => some (w, q * 1000)
    | .pitchUM p =>
        (pydiv ((cam.h_pixels : ℝ) * p) 1000).bind fun s => some (s, p)).bind fun swp =>
  (pydiv ((cam.v_pixels : ℝ) * swp.2) 1000).bind fun hgt =>
  (match cam.lens with
    | .focalMM f =>
        if f = 0 then some f
        else (pydiv (sensor_diag_mm swp.1 hgt / 2) f).bind fun _ => some f
    | .dfovDeg a =>
        if a = 0 then some 0
        else pydiv (sensor_diag_mm swp.1 hgt / 2)
          (Real.tan (a / 2 * (Real.pi / 180)))).bind fun f =>
  (pydiv (cam.h_pixels : ℝ) PIXELS_PER_CM).bind fun hmin_cm =>
  (if hmin_cm * 10 = 0 then some 0 else pydiv swp.1 (hmin_cm * 10)).bind fun magmin =>
  (if magmin = 0 then some 0
    else (pydiv f magmin).bind fun t => some (t + f)).bind fun dmin =>
  (if env.min_chart_fraction = 0 then some env.wall_width_cm
    else (pydiv env.chart_width_cm env.min_chart_fraction).bind fun t =>
      some (min env.wall_width_cm t)).bind fun hmaxc =>
  (if hmaxc * 10 = 0 then some 0 else pydiv swp.1 (hmaxc * 10)).bind fun magmax =>
  (if magmax = 0 then some 0
    else (pydiv f magmax).bind fun t => some (t + f)).bind fun dmax =>
  some ⟨dmin, min dmax (env.max_room_dist_cm * 10)⟩

/-- A diagonal-FOV input avoids the tangent's zeros when its only way of
being a multiple of 180 degrees is being the (guarded) zero angle. -/
def LensOK : LensDef → Prop
  | .focalMM _ => True
  | .dfovDeg a => ∀ k : ℤ, a = 180 * k → a = 0

theorem tan_half_deg_ne_zero {a : ℝ} (ha : a ≠ 0)
    (hk : ∀ k : ℤ, a = 180 * k → a = 0) :
    Real.tan (a / 2 * (Real.pi / 180)) ≠ 0 := by
  rw [Real.tan_ne_zero_iff]
  intro k hkθ
  have h2 : (180 * (k : ℝ) - a) * Real.pi = 0 := by linarith
  have h3 : (180 : ℝ) * k - a = 0 := by
    rcases mul_eq_zero.mp h2 with h3 | h3
    · exact h3
    · exact absurd h3 Real.pi_ne_zero
  exact ha (hk k (by linarith))

/-- C7 counterexample: with sane environment inputs and a camera whose
diagonal FOV is 360 degrees (an allowed input: the widget only enforces a
minimum of 0), the half-angle tangent divisor `tan(pi)` is exactly zero and
unguarded, so the checked computation performs a division by zero. -/
theorem division_guard_counterexample :
    computeCameraChecked ⟨21, 300, 200, 0.1⟩ ⟨1, 1, .pitchUM 2, .dfovDeg 360⟩ = none := by
  have ht : Real.tan ((360 : ℝ) / 2 * (Real.pi / 180)) = 0 := by
    rw [show (360 : ℝ) / 2 * (Real.pi / 180) = Real.pi by ring]
    exact Real.tan_pi
  simp only [computeCameraChecked, pydiv, ht, if_neg (by norm_num : ¬(1000 : ℝ) = 0),
    if_neg (by norm_num : ¬(360 : ℝ) = 0), eq_self_iff_true, if_true,
    Option.some_bind', Option.none_bind']

/-- C7 amended: for a positive horizontal pixel count and a lens input that
is not an unguarded multiple of 180 degrees of diagonal FOV, every division
of the per-camera computation is guarded or has a nonzero divisor: the
checked computation succeeds and returns exactly the unchecked result (and
the cross-camera reduction, a fold of `max` and `min`, performs no division
at all). -/
theorem perCamera_checked_total (env : EnvSpec) (cam : CameraSpec)
    (hh : 0 < cam.h_pixels) (hlens : LensOK cam.lens) :
    computeCameraChecked env cam = some (computeCamera env cam) := by
  rcases cam with ⟨h, v, sensor, lens⟩
  have hh' : 0 < h := hh
  have hh0 : ¬(h : ℝ) = 0 := Nat.cast_ne_zero.mpr hh'.ne'
  have h1000 : ¬(1000 : ℝ) = 0 := by norm_num
  have h55 : ¬PIXELS_PER_CM = 0 := by
    rw [PIXELS_PER_CM]
    norm_num
  have hmin_pos : 0 < (h : ℝ) / PIXELS_PER_CM * 10 := by
    have hcast : (0 : ℝ) < h := Nat.cast_pos.mpr hh'
    rw [PIXELS_PER_CM]
    positivity
  have hmin0 : ¬(h : ℝ) / PIXELS_PER_CM * 10 = 0 := ne_of_gt hmin_pos
  have hguard : ∀ m f : ℝ,
      (if m = 0 then some (0 : ℝ)
        else (if m = 0 then none else some (f / m)).bind fun t => some (t + f)) =
        some (if m = 0 then 0 else f / m + f) := by
    intro m f
    by_cases hz : m = 0
    · rw [if_pos hz, if_pos hz]
    · rw [if_neg hz, if_neg hz, Option.some_bind', if_neg hz]
  have hmagOpt : ∀ x d : ℝ,
      (if d = 0 then some (0 : ℝ) else if d = 0 then none else some (x / d)) =
        some (if d = 0 then 0 else x / d) := by
    intro x d
    by_cases hz : d = 0
    · rw [if_pos hz, if_pos hz]
    · rw [if_neg hz, if_neg hz, if_neg hz]
  have hfield :
      (if env.min_chart_fraction = 0 then some env.wall_width_cm
        else (if env.min_chart_fraction = 0 then none
          else some (env.chart_width_cm / env.min_chart_fraction)).bind fun t =>
            some (min env.wall_width_cm t)) = some (hfov_max_cm env) := by
    by_cases h0 : env.min_chart_fraction = 0
    · rw [if_pos h0, hfov_max_cm, if_pos h0]
    · rw [if_neg h0, if_neg h0, Option.some_bind', hfov_max_cm, if_neg h0]
  have htail : ∀ sw f : ℝ,
      ((pydiv (h : ℝ) PIXELS_PER_CM).bind fun hmin_cm =>
        (if hmin_cm * 10 = 0 then some 0 else pydiv sw (hmin_cm * 10)).bind fun magmin =>
        (if magmin = 0 then some 0
          else (pydiv f magmin).bind fun t => some (t + f)).bind fun dmin =>
        (if env.min_chart_fraction = 0 then some env.wall_width_cm
          else (pydiv env.chart_width_cm env.min_chart_fraction).bind fun t =>
            some (min env.wall_width_cm t)).bind fun hmaxc =>
        (if hmaxc * 10 = 0 then some 0 else pydiv sw (hmaxc * 10)).bind fun magmax =>
        (if magmax = 0 then some 0
          else (pydiv f magmax).bind fun t => some (t + f)).bind fun dmax =>
        some (CameraRange.mk dmin (min dmax (env.max_room_dist_cm * 10)))) =
        some (CameraRange.mk (min_dist_mm sw f h) (max_dist_mm sw f env)) := by
    intro sw f
    simp only [pydiv, if_neg h55, if_neg hmin0, Option.some_bind']
    rw [show sw / ((h : ℝ) / PIXELS_PER_CM * 10) = mag_min sw h from by
      rw [mag_min_eq, hfov_min_mm, hfov_min_cm]]
    rw [hguard]
    simp only [Option.some_bind']
    rw [hfield]
    simp only [Option.some_bind']
    rw [hmagOpt]
    simp only [Option.some_bind']
    rw [hguard]
    simp only [Option.some_bind']
    rfl
  cases sensor with
  | widthMM w =>
    cases lens with
    | focalMM f =>
      rw [computeCameraChecked]
      dsimp only
      rw [pydiv, if_neg hh0]
      simp only [Option.some_bind']
      rw [pydiv, if_neg h1000]
      simp only [Option.some_bind']
      by_cases hf : f = 0
      · rw [if_pos hf]
        simp only [Option.some_bind']
        rw [htail]
        rfl
      · rw [if_neg hf, pydiv, if_neg hf]
        simp only [Option.some_bind']
        rw [htail]
        rfl
    | dfovDeg a =>
      have hka : ∀ k : ℤ, a = 180 * k → a = 0 := hlens
      rw [computeCameraChecked]
      dsimp only
      rw [pydiv, if_neg hh0]
      simp only [Option.some_bind']
      rw [pydiv, if_neg h1000]
      simp only [Option.some_bind']
      by_cases ha : a = 0
      · rw [if_pos ha]
        simp only [Option.some_bind']
        rw [htail, computeCamera]
        dsimp only [resolveSensor, resolveFocal]
        rw [focal_of_dfov, if_pos ha]
      · have ht0 := tan_half_deg_ne_zero ha hka
        rw [if_neg ha, pydiv, if_neg ht0]
        simp only [Option.some_bind']
        rw [htail, computeCamera]
        dsimp only [resolveSensor, resolveFocal]
        rw [focal_of_dfov, if_neg ha]
        rfl
  | pitchUM p =>
    cases lens with
    | focalMM f =>
      rw [computeCameraChecked]
      dsimp only
      rw [pydiv, if_neg h1000]
      simp only [Option.some_bind']
      rw [pydiv, if_neg h1000]
      simp only [Option.some_bind']
      by_cases hf : f = 0
      · rw [if_pos hf]
        simp only [Option.some_bind']
        rw [htail]
        rfl
      · rw [if_neg hf, pydiv, if_neg hf]
        simp only [Option.some_bind']
        rw [htail]
        rfl
    | dfovDeg a =>
      have hka : ∀ k : ℤ, a = 180 * k → a = 0 := hlens
      rw [computeCameraChecked]
      dsimp only
      rw [pydiv, if_neg h1000]
      simp only [Option.some_bind']
      rw [pydiv, if_neg h1000]
      simp only [Option.some_bind']
      by_cases ha : a = 0
      · rw [if_pos ha]
        simp only [Option.some_bind']
        rw [htail, computeCamera]
        dsimp only [resolveSensor, resolveFocal]
        rw [focal_of_dfov, if_pos ha]
        rfl
      · have ht0 := tan_half_deg_ne_zero ha hka
        rw [if_neg ha, pydiv, if_neg ht0]
        simp only [Option.some_bind']
        rw [htail, computeCamera]
        dsimp only [resolveSensor, resolveFocal]
        rw [focal_of_dfov, if_neg ha]
        rfl

/-- Witness for the amended C7 at concrete inputs. -/
theorem perCamera_checked_total_witness :
    computeCameraChecked ⟨21, 300, 200, 0.1⟩ ⟨3848, 2160, .widthMM 7.696, .focalMM 3⟩ =
      some (computeCamera ⟨21, 300, 200, 0.1⟩ ⟨3848, 2160, .widthMM 7.696, .focalMM 3⟩) :=
  perCamera_checked_total ⟨21, 300, 200, 0.1⟩ ⟨3848, 2160, .widthMM 7.696, .focalMM 3⟩
    (by norm_num) trivial

end LensChart
